import Mathlib

/-!
Shallow embedding of the pricing/state engine of the booking-calendar
repository (src/calendar.js, src/new_calendar.js, src/v5.js).

Timestamps are modelled as milliseconds since the epoch for midnight of a
calendar date, with no daylight-saving shifts (the spec models no timezone
conversion, and every source file manipulates timestamps produced by
`new Date(year, month - 1, day).getTime()`).  A calendar date therefore
maps to `86400000 * daysFromCivil year month day`.

JavaScript peculiarities that the claims touch are kept:
  - falsy guards (`if (!timestamp) return false`) become explicit `= 0`
    tests (the only falsy number a date can produce here; NaN does not
    arise in the integer model);
  - `Math.round` becomes `jsRound`, rounding half toward positive
    infinity as JavaScript does;
  - the `blockedDates` entries keep their union shape (bare string or
    `{date, price}` object);
  - JavaScript objects used as maps (`dateDiscounts`) become association
    lists with key-update/delete/lookup helpers.
-/

/-- Milliseconds in 24 hours, the literal `86400000` used by the source. -/
def msPerDay : Int := 86400000

/-- Day count since 1970-01-01 for a (year, month, day) triple, matching the
result of `new Date(year, month - 1, day).getTime() / 86400000` in a
DST-free locale.  Like the JavaScript `Date` constructor, out-of-range day
or month values wrap (the formula is linear in the day, and continuous
across month 12 into month 13 = January of the next year). -/
def daysFromCivil (y m d : Int) : Int :=
  let yAdj := if m ≤ 2 then y - 1 else y
  let era := Int.fdiv yAdj 400
  let yoe := yAdj - era * 400
  let mp := if m > 2 then m - 3 else m + 9
  let doy := (153 * mp + 2) / 5 + d - 1
  let doe := yoe * 365 + yoe / 4 - yoe / 100 + doy
  era * 146097 + doe - 719468

/-- The timestamp of a calendar date, as produced by
`new Date(year, month - 1, day).getTime()` (local midnight, no DST). -/
def toTimestamp (y m d : Int) : Int := msPerDay * daysFromCivil y m d

/-- JavaScript `Date.prototype.getDay()`: 0 = Sunday, …, 6 = Saturday.
1970-01-01 was a Thursday (= 4). -/
def jsGetDay (y m d : Int) : Int := (daysFromCivil y m d + 4) % 7

/-- `new Date(year, month, 0).getDate()`: the number of days in `month`
(1-based) of `year`, computed exactly as the source's "day 0 of the next
month" trick: the distance from the first of the month to the first of
the next month. -/
def daysInMonth (y m : Int) : Int := daysFromCivil y (m + 1) 1 - daysFromCivil y m 1

/-- `String(n).padStart(2, '0')`: pad a single nonnegative digit with a
leading zero; any other value (two digits, negative) is already at least
two characters wide and stays as is. -/
def pad2 (n : Int) : String := if 0 ≤ n ∧ n < 10 then "0" ++ toString n else toString n

/-- `formatDate(day, month, year)`: the display string "DD.MM.YYYY". -/
def formatDate (day month year : Int) : String :=
  pad2 day ++ "." ++ pad2 month ++ "." ++ toString year

/-- The month key "YYYY-MM" used to namespace per-month state. -/
def monthKeyStr (year month : Int) : String := toString year ++ "-" ++ pad2 month

/-- The date object built by `createFullDate`: the (day, month, year)
components together with the canonical timestamp.  The source stores the
month as a two-digit string; the bijection with month numbers lets the
model use the number directly. -/
structure FullDate where
  day : Int
  month : Int
  year : Int
  timestamp : Int
deriving Repr, DecidableEq

/-- `createFullDate(day, monthName, year)`: builds the date object with its
timestamp.  The source's month-name validation and `isNaN` check never
fire for numeric inputs (the JavaScript `Date` constructor wraps
out-of-range components rather than failing), so the model is total. -/
def createFullDate (day month year : Int) : FullDate :=
  { day := day, month := month, year := year, timestamp := toTimestamp year month day }

/-- One entry of `MonthPrices.prices`: `{date: "DD.MM.YYYY", price}`. -/
structure PriceEntry where
  date : String
  price : Int
deriving Repr, DecidableEq

/-- Per-month price data: `{prices: [...], defaultCost}`. -/
structure MonthData where
  prices : List PriceEntry
  defaultCost : Int
deriving Repr, DecidableEq

/-- A `blockedDates` list item: legacy bare string or `{date, price}`. -/
inductive BlockedEntry where
  | plain (date : String)
  | obj (date : String) (price : Int)
deriving Repr, DecidableEq

/-- The date string carried by a blocked-dates entry. -/
def BlockedEntry.dateOf : BlockedEntry → String
  | .plain d => d
  | .obj d _ => d

/-- A selected date range `{start, end}`. -/
structure DateRange where
  startD : FullDate
  endD : FullDate
deriving Repr, DecidableEq

/-- The transient two-click selection state (`tempSelection`). -/
structure TempSelection where
  start : Option Int
  startMonth : Option Int
  startYear : Option Int
  isRangeConfirmed : Bool
deriving Repr, DecidableEq

/-- The in-memory calendar state (`this.calendarData`), minus
`globalSettings.defaultCost` which every claim passes explicitly through
the `basePrice` argument (the source reads it from the cost input with
that same fallback). -/
structure CalendarData where
  dateRanges : List DateRange
  excludedDates : List Int
  dateDiscounts : List (Int × Int)
  blockedDates : List (String × List BlockedEntry)
  basePrices : List (String × MonthData)
deriving Repr, DecidableEq

/-- Lookup in an association list keyed by strings (JavaScript object
property access `obj[key]`). -/
def assocFind {α : Type} (l : List (String × α)) (k : String) : Option α :=
  (l.find? (fun p => p.1 == k)).map (·.2)

/-- Key update in an association list (`obj[key] = v`). -/
def assocSet {α : Type} (l : List (String × α)) (k : String) (v : α) : List (String × α) :=
  if l.any (fun p => p.1 == k) then
    l.map (fun p => if p.1 == k then (k, v) else p)
  else
    l ++ [(k, v)]

/-- `dateDiscounts[timestamp]` lookup. -/
def lookupDiscount (dd : List (Int × Int)) (ts : Int) : Option Int :=
  (dd.find? (fun p => p.1 == ts)).map (·.2)

/-- `delete dateDiscounts[timestamp]`. -/
def deleteDiscount (dd : List (Int × Int)) (ts : Int) : List (Int × Int) :=
  dd.filter (fun p => p.1 != ts)

/-- `dateDiscounts[timestamp] = price` (insert or overwrite). -/
def setDiscount (dd : List (Int × Int)) (ts price : Int) : List (Int × Int) :=
  (ts, price) :: deleteDiscount dd ts

/-- The match a `blockedDates` item performs against a display string:
`typeof item === 'object' && item.date ? item.date === s : item === s`.
An object entry with an empty (falsy) date string falls through to the
object-vs-string comparison, which is false. -/
def blockedMatches (e : BlockedEntry) (dateString : String) : Bool :=
  match e with
  | .obj d _ => if d == "" then false else d == dateString
  | .plain d => d == dateString

/-- `isDateBlocked(dateString, monthYearKey)`: membership of the display
string in the month's blocked list; empty-string arguments are falsy and
yield false. -/
def isDateBlocked (cd : CalendarData) (dateString monthYearKey : String) : Bool :=
  if dateString == "" || monthYearKey == "" then false
  else
    match assocFind cd.blockedDates monthYearKey with
    | none => false
    | some l => l.any (fun e => blockedMatches e dateString)

/-- `getBlockedDatePrice(dateString, monthYearKey)`: the stored price of
the matching `{date, price}` entry, and 0 for a bare string entry, a
missing entry, or falsy arguments. -/
def getBlockedDatePrice (cd : CalendarData) (dateString monthYearKey : String) : Int :=
  if dateString == "" || monthYearKey == "" then 0
  else
    match assocFind cd.blockedDates monthYearKey with
    | none => 0
    | some l =>
      match l.find? (fun e => blockedMatches e dateString) with
      | none => 0
      | some (.plain _) => 0
      | some (.obj _ price) => price

/-- `isDateExcluded(timestamp)`: set membership, with the source's falsy
guard (`!timestamp`) making timestamp 0 always "not excluded". -/
def isDateExcluded (cd : CalendarData) (ts : Int) : Bool :=
  if ts == 0 then false else cd.excludedDates.contains ts

/-- `isDateInRanges(fullDate)`: true iff the timestamp lies in `[start,
end]` of some stored range — except that the source's falsy guard
(`!fullDate.timestamp`) makes a date with timestamp 0 never in range. -/
def isDateInRanges (cd : CalendarData) (fd : FullDate) : Bool :=
  if fd.timestamp == 0 then false
  else cd.dateRanges.any (fun r =>
    fd.timestamp ≥ r.startD.timestamp && fd.timestamp ≤ r.endD.timestamp)

/-- `isRangeOverlap(newStart, newEnd)`: the inclusive interval-overlap
test against every stored range, with the source's falsy guard making a
zero endpoint always report "no overlap". -/
def isRangeOverlap (cd : CalendarData) (newStart newEnd : Int) : Bool :=
  if newStart == 0 || newEnd == 0 then false
  else cd.dateRanges.any (fun r =>
    newStart ≤ r.endD.timestamp && newEnd ≥ r.startD.timestamp)

/-- JavaScript `Math.round`: round half toward positive infinity. -/
def jsRound (q : ℚ) : Int := Rat.floor (q + 1/2)

namespace CalJs

/-- `applyDiscount(basePrice, discountStr)` of src/calendar.js: a
non-numeric discount (`none`) or a numeric one outside `[0, 100]` is
rejected and the base price is returned unchanged; otherwise the price is
`Math.round(basePrice * (100 - discountValue) / 100)`. -/
def applyDiscount (basePrice : Int) (discountValue : Option ℚ) : Int :=
  match discountValue with
  | none => basePrice
  | some v =>
      if v < 0 ∨ v > 100 then basePrice
      else jsRound ((basePrice : ℚ) * (100 - v) / 100)

end CalJs

namespace V5

/-- `applyDiscount(price, discount)` of src/v5.js: a non-numeric discount
is rejected (price returned unchanged), but a numeric one is clamped into
`[0, 100]` with `Math.max(0, Math.min(100, x))` and then
`Math.round(price * (1 - discountPercent / 100))` is returned. -/
def applyDiscount (price : Int) (discount : Option ℚ) : Int :=
  match discount with
  | none => price
  | some v =>
      let discountPercent := max 0 (min 100 v)
      jsRound ((price : ℚ) * (1 - discountPercent / 100))

end V5

/-- The per-day outcome computed by `updateAllDaysDisplay` of
src/calendar.js: the three status classes and the displayed price. -/
structure DayDisplay where
  isSelected : Bool
  isActive : Bool
  isBlocked : Bool
  price : Int
deriving Repr, DecidableEq

/-- The body of the per-cell loop of `updateAllDaysDisplay`
(src/calendar.js, lines 744–781): derives the status flags and the
displayed price of one calendar date from the current state.  `basePrice`
is `getBasePrice()` (the cost input, falling back to the global default
cost). -/
def updateDayDisplay (cd : CalendarData) (basePrice : Int) (monthYearKey : String)
    (fd : FullDate) (dateString : String) : DayDisplay :=
  let isInRange := isDateInRanges cd fd
  let isExcluded := isDateExcluded cd fd.timestamp
  let isBlocked := isDateBlocked cd dateString monthYearKey
  let hasDiscount := (lookupDiscount cd.dateDiscounts fd.timestamp).isSome
  { isSelected := isInRange && !isExcluded && !isBlocked
    isActive := hasDiscount && !isExcluded && !isBlocked
    isBlocked := isBlocked
    price :=
      if isBlocked then getBlockedDatePrice cd dateString monthYearKey
      else if isExcluded then basePrice
      else if hasDiscount then (lookupDiscount cd.dateDiscounts fd.timestamp).getD basePrice
      else basePrice }

/-- Update the first price entry matching the date string (the source's
`findIndex` followed by an assignment at that index); no change if the
date is absent. -/
def updateFirstPrice : List PriceEntry → String → Int → List PriceEntry
  | [], _, _ => []
  | e :: rest, d, p =>
      if e.date == d then { e with price := p } :: rest
      else e :: updateFirstPrice rest d p

/-- The source's recurring "update existing or append" on a month's price
list: `findIndex`, then assign in place or `push`. -/
def upsertPrice (ps : List PriceEntry) (dateString : String) (price : Int) : List PriceEntry :=
  if ps.any (fun e => e.date == dateString) then updateFirstPrice ps dateString price
  else ps ++ [⟨dateString, price⟩]

/-- The day numbers `1, 2, …, daysInMonth` a `for (let day = 1; day <=
daysInMonth; day++)` loop visits. -/
def dayListOfMonth (year month : Int) : List Int :=
  (List.range (daysInMonth year month).toNat).map (fun i : Nat => (i : Int) + 1)

/-- The display strings of the days of a month, in loop order. -/
def monthDates (year month : Int) : List String :=
  (dayListOfMonth year month).map (fun d => formatDate d month year)

/-- The timestamps visited by `for (let timestamp = startTimestamp;
timestamp <= endTimestamp; timestamp += 86400000)` (src/calendar.js,
`cancelLastRange`).  Integer division on `Int` rounds toward negative
infinity, so an empty interval yields an empty list. -/
def cancelTimestamps (startTs endTs : Int) : List Int :=
  (List.range ((endTs - startTs) / msPerDay + 1).toNat).map
    (fun i : Nat => startTs + (i : Int) * msPerDay)

namespace CalJs

/-- `cancelLastRange()` of src/calendar.js: pop the most recent range and
delete every `dateDiscounts` entry at the timestamps stepped through the
popped range in 86400000 ms increments; set `isRangeConfirmed` back to
true.  With no stored range it logs and changes nothing. -/
def cancelLastRange (cd : CalendarData) (sel : TempSelection) : CalendarData × TempSelection :=
  match cd.dateRanges.getLast? with
  | none => (cd, sel)
  | some lastRange =>
      let dd := (cancelTimestamps lastRange.startD.timestamp lastRange.endD.timestamp).foldl
        deleteDiscount cd.dateDiscounts
      ({ cd with dateRanges := cd.dateRanges.dropLast, dateDiscounts := dd },
       { sel with isRangeConfirmed := true })

end CalJs

namespace V5

/-- `cancelLastRange()` of src/v5.js: pop the most recent range and reset
the whole selection state; the only other work is CSS-class cleanup —
`dateDiscounts` is left untouched.  With no stored range it logs and
changes nothing. -/
def cancelLastRange (cd : CalendarData) (sel : TempSelection) : CalendarData × TempSelection :=
  match cd.dateRanges.getLast? with
  | none => (cd, sel)
  | some _ =>
      ({ cd with dateRanges := cd.dateRanges.dropLast },
       { start := none, startMonth := none, startYear := none, isRangeConfirmed := true })

end V5

namespace NC

/-- `excludeDay(...)` of src/new_calendar.js (lines 180–242): add the
timestamp to `excludedDates`; delete the stored discount — but only when
the stored value is truthy, so a 0-valued discount (from a 100% discount)
survives; reset the day's entry in the month's price list to the base
price when such an entry exists.  (The method also clears
`tempSelection.start*`, which `handleDayClick` below threads through.) -/
def excludeDay (cd : CalendarData) (fd : FullDate) (day month year : Int)
    (monthKey : String) (basePrice : Int) : CalendarData :=
  let excluded :=
    if cd.excludedDates.contains fd.timestamp then cd.excludedDates
    else fd.timestamp :: cd.excludedDates
  let discounts :=
    match lookupDiscount cd.dateDiscounts fd.timestamp with
    | some v => if v == 0 then cd.dateDiscounts else deleteDiscount cd.dateDiscounts fd.timestamp
    | none => cd.dateDiscounts
  let dateStr := formatDate day month year
  let bps :=
    match assocFind cd.basePrices monthKey with
    | none => cd.basePrices
    | some md =>
        if md.prices.any (fun e => e.date == dateStr) then
          assocSet cd.basePrices monthKey { md with prices := updateFirstPrice md.prices dateStr basePrice }
        else cd.basePrices
  { cd with excludedDates := excluded, dateDiscounts := discounts, basePrices := bps }

/-- `startRangeSelection(...)` of src/new_calendar.js: record the clicked
day as the pending range start and un-exclude it if it was excluded.
`isRangeConfirmed` is not changed here. -/
def startRangeSelection (cd : CalendarData) (sel : TempSelection) (day month year : Int)
    (fd : FullDate) : CalendarData × TempSelection :=
  let excluded :=
    if isDateExcluded cd fd.timestamp then cd.excludedDates.filter (fun t => t != fd.timestamp)
    else cd.excludedDates
  ({ cd with excludedDates := excluded },
   { sel with start := some day, startMonth := some month, startYear := some year })

/-- The body of `completeRangeSelection` once the recorded start fields
are present.  The leading test is the early error return of
new_calendar.js line 2165, `if (!fullDate || !fullDate.timestamp ||
!this.tempSelection.start) return;`: a clicked end date with (falsy)
timestamp 0, or a (falsy) recorded start day 0, aborts with nothing
changed. -/
def completeRangeSelectionGo (cd : CalendarData) (sel : TempSelection) (fd : FullDate)
    (s sm sy : Int) : CalendarData × TempSelection :=
  if fd.timestamp == 0 || s == 0 then (cd, sel)
  else
    ({ cd with dateRanges := cd.dateRanges ++
        [if (createFullDate s sm sy).timestamp > fd.timestamp
          then ⟨fd, createFullDate s sm sy⟩ else ⟨createFullDate s sm sy, fd⟩] },
     { start := none, startMonth := none, startYear := none, isRangeConfirmed := false })

/-- `completeRangeSelection(...)` of src/new_calendar.js (lines
2163–2221): after the falsy-argument early return, build the start date
from the recorded selection, warn — and nothing more — if the candidate
overlaps an existing range, swap the endpoints so the earlier one is the
start, append the range, flip `isRangeConfirmed` to false and clear the
recorded start.  (A missing start month or year makes `createFullDate`
return null in the source, again a no-op: the catch-all match arm.) -/
def completeRangeSelection (cd : CalendarData) (sel : TempSelection) (fd : FullDate) :
    CalendarData × TempSelection :=
  match sel.start, sel.startMonth, sel.startYear with
  | some s, some sm, some sy => completeRangeSelectionGo cd sel fd s sm sy
  | _, _, _ => (cd, sel)

/-- `handleDayClick(event)` of src/new_calendar.js (lines 2068–2119): the
dispatch between excluding an in-range day, starting a range pick and
completing one.  A click while `isRangeConfirmed` is false is ignored.  A
click on a blocked day delegates to the blocked-day toggle, which no
claim exercises and which is modelled as the identity here. -/
def handleDayClick (cd : CalendarData) (sel : TempSelection) (day month year : Int)
    (basePrice : Int) : CalendarData × TempSelection :=
  if sel.isRangeConfirmed = false then (cd, sel)
  else if isDateBlocked cd (formatDate day month year) (monthKeyStr year month) then (cd, sel)
  else if isDateInRanges cd (createFullDate day month year) &&
      !(isDateExcluded cd (createFullDate day month year).timestamp) then
    (excludeDay cd (createFullDate day month year) day month year (monthKeyStr year month)
      basePrice,
     { sel with start := none, startMonth := none, startYear := none })
  else if sel.start = none then
    startRangeSelection cd sel day month year (createFullDate day month year)
  else completeRangeSelection cd sel (createFullDate day month year)

end NC

namespace V5

/-- `handleDayClick(day, dayWrapper)` of src/v5.js (lines 1931–2053).  A
blocked day is ignored.  A first click records the start and flips
`isRangeConfirmed` to false.  A second click in a different month or year
is rejected with only `isRangeConfirmed` set back to true; otherwise the
day range `[min, max]` is built, rejected the same way if it overlaps an
existing range, else appended with `isRangeConfirmed` set back to true.
In none of the second-click paths is `tempSelection.start` cleared. -/
def handleDayClick (cd : CalendarData) (sel : TempSelection) (day month year : Int) :
    CalendarData × TempSelection :=
  let dateString := formatDate day month year
  let monthYearKey := monthKeyStr year month
  if isDateBlocked cd dateString monthYearKey then (cd, sel)
  else if sel.isRangeConfirmed then
    (cd, { start := some day, startMonth := some month, startYear := some year,
           isRangeConfirmed := false })
  else
    match sel.start, sel.startMonth, sel.startYear with
    | some sd, some sm, some sy =>
        if sm ≠ month ∨ sy ≠ year then (cd, { sel with isRangeConfirmed := true })
        else
          let rangeStart := min sd day
          let rangeEnd := max sd day
          let startDate := createFullDate rangeStart month year
          let endDate := createFullDate rangeEnd month year
          if isRangeOverlap cd startDate.timestamp endDate.timestamp then
            (cd, { sel with isRangeConfirmed := true })
          else
            ({ cd with dateRanges := cd.dateRanges ++ [⟨startDate, endDate⟩] },
             { sel with isRangeConfirmed := true })
    | _, _, _ => (cd, sel)

/-- `ensureBasePrices(monthKey)` of src/v5.js (lines 2059–2089): create
the month record if missing (at the current base price), then for every
day 1‥daysInMonth append an entry at the current base price — not the
month's stored `defaultCost` — when none exists for that date string. -/
def ensurePricesStep (basePrice : Int) (ps : List PriceEntry) (dateString : String) :
    List PriceEntry :=
  if ps.any (fun e => e.date == dateString) then ps else ps ++ [⟨dateString, basePrice⟩]

/-- The `ensureBasePrices` month-record transformation; the `Option`
argument is `this.calendarData.basePrices[monthKey]`, possibly absent. -/
def ensureBasePrices (md : Option MonthData) (year month : Int) (basePrice : Int) : MonthData :=
  let md0 : MonthData := match md with
    | none => { prices := [], defaultCost := basePrice }
    | some m => m
  { md0 with prices := (monthDates year month).foldl (ensurePricesStep basePrice) md0.prices }

end V5

namespace CalJs

/-- The body of the day loop of `applyWeekendDiscount` (src/calendar.js,
lines 442–505): on a Saturday or Sunday that is neither excluded nor
blocked, store the discounted price in `dateDiscounts`, create the month
record if missing, and upsert the day's entry in the month's price list.
The loop only writes `dateDiscounts`/`basePrices`, so the skip tests read
the unchanged outer state `cd`. -/
def weekendEnsureMonth (bps : List (String × MonthData)) (monthKey : String)
    (basePrice : Int) : List (String × MonthData) :=
  match assocFind bps monthKey with
  | none => assocSet bps monthKey { prices := [], defaultCost := basePrice }
  | some _ => bps

/-- The month record the loop body works on after the ensure step. -/
def weekendMonthRecord (bps : List (String × MonthData)) (monthKey : String)
    (basePrice : Int) : MonthData :=
  (assocFind (weekendEnsureMonth bps monthKey basePrice) monthKey).getD
    { prices := [], defaultCost := basePrice }

def weekendStep (cd : CalendarData) (year month : Int) (monthKey : String)
    (basePrice discountedPrice : Int)
    (acc : List (Int × Int) × List (String × MonthData)) (day : Int) :
    List (Int × Int) × List (String × MonthData) :=
  if jsGetDay year month day == 0 || jsGetDay year month day == 6 then
    if isDateExcluded cd (toTimestamp year month day) ||
        isDateBlocked cd (formatDate day month year) monthKey then acc
    else
      (setDiscount acc.1 (toTimestamp year month day) discountedPrice,
       assocSet (weekendEnsureMonth acc.2 monthKey basePrice) monthKey
         { weekendMonthRecord acc.2 monthKey basePrice with
           prices := upsertPrice (weekendMonthRecord acc.2 monthKey basePrice).prices
             (formatDate day month year) discountedPrice })
  else acc

/-- `applyWeekendDiscount(discountPercent)` of src/calendar.js: compute
the discounted price once with `applyDiscount`, then run the day loop
over the displayed month. -/
def applyWeekendDiscount (cd : CalendarData) (year month : Int) (basePrice : Int)
    (discountPercent : Option ℚ) : CalendarData :=
  let monthKey := monthKeyStr year month
  let discountedPrice := applyDiscount basePrice discountPercent
  let res := (dayListOfMonth year month).foldl
    (weekendStep cd year month monthKey basePrice discountedPrice)
    (cd.dateDiscounts, cd.basePrices)
  { cd with dateDiscounts := res.1, basePrices := res.2 }

end CalJs

/-- The invariant of claim C6: every stored range is ordered. -/
def RangesInv (cd : CalendarData) : Prop :=
  ∀ r ∈ cd.dateRanges, r.startD.timestamp ≤ r.endD.timestamp

/-! ### Helper lemmas about the map operations and the date arithmetic -/

theorem jsRound_eq (q : ℚ) : jsRound q = ⌊q + 1/2⌋ := by
  rw [jsRound, Rat.floor_def', ← Rat.floor_def]

theorem jsRound_intCast (z : Int) : jsRound (z : ℚ) = z := by
  rw [jsRound_eq, Int.floor_int_add]
  norm_num

theorem lookupDiscount_cons (hd : Int × Int) (tl : List (Int × Int)) (k : Int) :
    lookupDiscount (hd :: tl) k = if hd.1 = k then some hd.2 else lookupDiscount tl k := by
  by_cases h : hd.1 = k
  · rw [if_pos h]
    unfold lookupDiscount
    rw [List.find?_cons_of_pos _ (by simp [h])]
    rfl
  · rw [if_neg h]
    unfold lookupDiscount
    rw [List.find?_cons_of_neg _ (by simp [h])]

theorem deleteDiscount_cons (hd : Int × Int) (tl : List (Int × Int)) (ts : Int) :
    deleteDiscount (hd :: tl) ts =
      if hd.1 = ts then deleteDiscount tl ts else hd :: deleteDiscount tl ts := by
  by_cases h : hd.1 = ts
  · simp [deleteDiscount, List.filter_cons, h]
  · simp [deleteDiscount, List.filter_cons, h]

theorem lookupDiscount_deleteDiscount (dd : List (Int × Int)) (ts k : Int) (h : k ≠ ts) :
    lookupDiscount (deleteDiscount dd ts) k = lookupDiscount dd k := by
  induction dd with
  | nil => rfl
  | cons hd tl ih =>
      rw [deleteDiscount_cons, lookupDiscount_cons]
      by_cases hk : hd.1 = ts
      · rw [if_pos hk, if_neg (by omega), ih]
      · rw [if_neg hk, lookupDiscount_cons, ih]

theorem lookupDiscount_deleteDiscount_self (dd : List (Int × Int)) (ts : Int) :
    lookupDiscount (deleteDiscount dd ts) ts = none := by
  induction dd with
  | nil => rfl
  | cons hd tl ih =>
      rw [deleteDiscount_cons]
      by_cases hk : hd.1 = ts
      · rw [if_pos hk]
        exact ih
      · rw [if_neg hk, lookupDiscount_cons, if_neg hk]
        exact ih

theorem lookupDiscount_setDiscount_self (dd : List (Int × Int)) (ts p : Int) :
    lookupDiscount (setDiscount dd ts p) ts = some p := by
  rw [setDiscount, lookupDiscount_cons, if_pos rfl]

theorem lookupDiscount_setDiscount_other (dd : List (Int × Int)) (ts p k : Int) (h : k ≠ ts) :
    lookupDiscount (setDiscount dd ts p) k = lookupDiscount dd k := by
  rw [setDiscount, lookupDiscount_cons, if_neg (by omega)]
  exact lookupDiscount_deleteDiscount dd ts k h

theorem lookupDiscount_foldl_deleteDiscount (l : List Int) (dd : List (Int × Int)) (k : Int) :
    lookupDiscount (l.foldl deleteDiscount dd) k =
      if k ∈ l then none else lookupDiscount dd k := by
  induction l generalizing dd with
  | nil => simp
  | cons hd tl ih =>
      by_cases hk : k = hd
      · subst hk
        by_cases hmem : k ∈ tl
        · simp [List.foldl, ih, hmem]
        · simp [List.foldl, ih, hmem, lookupDiscount_deleteDiscount_self]
      · by_cases hmem : k ∈ tl
        · simp [List.foldl, ih, hmem, hk]
        · simp [List.foldl, ih, hmem, hk, lookupDiscount_deleteDiscount dd hd k hk]

theorem daysFromCivil_day (y m d : Int) : daysFromCivil y m d = daysFromCivil y m 0 + d := by
  simp only [daysFromCivil]
  split_ifs <;> ring

theorem toTimestamp_day_mono {y m d1 d2 : Int} (h : d1 ≤ d2) :
    toTimestamp y m d1 ≤ toTimestamp y m d2 := by
  simp only [toTimestamp, daysFromCivil_day y m d1, daysFromCivil_day y m d2, msPerDay]
  nlinarith

theorem toTimestamp_day_inj {y m d1 d2 : Int} (h : toTimestamp y m d1 = toTimestamp y m d2) :
    d1 = d2 := by
  simp only [toTimestamp, daysFromCivil_day y m d1, daysFromCivil_day y m d2, msPerDay] at h
  omega

theorem mem_cancelTimestamps (s e t : Int) :
    t ∈ cancelTimestamps s e ↔ s ≤ t ∧ t ≤ e ∧ (t - s) % msPerDay = 0 := by
  rw [cancelTimestamps]
  constructor
  · intro ht
    obtain ⟨i, hir, hit⟩ := List.mem_map.mp ht
    rw [List.mem_range] at hir
    rw [msPerDay] at hir hit ⊢
    omega
  · rintro ⟨h1, h2, h3⟩
    rw [msPerDay] at h3
    obtain ⟨k, hk⟩ : (86400000 : Int) ∣ t - s := by omega
    refine List.mem_map.mpr ⟨k.toNat, List.mem_range.mpr ?_, ?_⟩
    · rw [msPerDay]
      omega
    · rw [msPerDay]
      omega

/-! ### Claim C1 -/

/-- Claim C1: `updateAllDaysDisplay` derives every date's status and price
in the fixed precedence order blocked → excluded → discounted → default:
a blocked date shows the blocked flag and `getBlockedDatePrice`; an
unblocked excluded date shows the base price even when a discount entry
exists; an unblocked, unexcluded date with a discount entry shows the
stored discount value with the active (discount) flag; otherwise the base
price is shown.  In particular a date simultaneously in range, discounted
and blocked is displayed as blocked with the blocked price, with the
selected and active flags off. -/
theorem C1_status_price_precedence (cd : CalendarData) (basePrice : Int) (mk : String)
    (fd : FullDate) (ds : String) :
    (isDateBlocked cd ds mk = true →
      (updateDayDisplay cd basePrice mk fd ds).isBlocked = true ∧
      (updateDayDisplay cd basePrice mk fd ds).price = getBlockedDatePrice cd ds mk) ∧
    (isDateBlocked cd ds mk = false → isDateExcluded cd fd.timestamp = true →
      (updateDayDisplay cd basePrice mk fd ds).price = basePrice) ∧
    (∀ v, isDateBlocked cd ds mk = false → isDateExcluded cd fd.timestamp = false →
      lookupDiscount cd.dateDiscounts fd.timestamp = some v →
      (updateDayDisplay cd basePrice mk fd ds).price = v ∧
      (updateDayDisplay cd basePrice mk fd ds).isActive = true) ∧
    (isDateBlocked cd ds mk = false → isDateExcluded cd fd.timestamp = false →
      lookupDiscount cd.dateDiscounts fd.timestamp = none →
      (updateDayDisplay cd basePrice mk fd ds).price = basePrice) ∧
    (isDateInRanges cd fd = true →
      (lookupDiscount cd.dateDiscounts fd.timestamp).isSome = true →
      isDateBlocked cd ds mk = true →
      (updateDayDisplay cd basePrice mk fd ds).isBlocked = true ∧
      (updateDayDisplay cd basePrice mk fd ds).isSelected = false ∧
      (updateDayDisplay cd basePrice mk fd ds).isActive = false ∧
      (updateDayDisplay cd basePrice mk fd ds).price = getBlockedDatePrice cd ds mk) := by
  refine ⟨fun hb => ?_, fun hb he => ?_, fun v hb he hd => ?_, fun hb he hd => ?_,
    fun _hr hd hb => ?_⟩
  · simp [updateDayDisplay, hb]
  · simp [updateDayDisplay, hb, he]
  · simp [updateDayDisplay, hb, he, hd]
  · simp [updateDayDisplay, hb, he, hd]
  · simp [updateDayDisplay, hb, hd]

/-- The concrete state of the C1 witness: May 2025 with the confirmed
range May 5 – May 15, a 200 discount stored for May 10, and May 10 also
blocked at price 0. -/
def c1State : CalendarData :=
  { dateRanges := [⟨createFullDate 5 5 2025, createFullDate 15 5 2025⟩]
    excludedDates := []
    dateDiscounts := [(toTimestamp 2025 5 10, 200)]
    blockedDates := [("2025-05", [BlockedEntry.obj "10.05.2025" 0])]
    basePrices := [] }

/-- The date May 10 2025, in range, discounted and blocked in `c1State`. -/
def c1Date : FullDate := createFullDate 10 5 2025

/-- Witness for C1: on `c1State` the triple-conflict date May 10 2025 is
in range, has a discount entry and is blocked, and the derived display is
Blocked with the blocked price 0. -/
theorem C1_status_price_precedence_witness :
    isDateInRanges c1State c1Date = true ∧
    (lookupDiscount c1State.dateDiscounts c1Date.timestamp).isSome = true ∧
    isDateBlocked c1State "10.05.2025" "2025-05" = true ∧
    ((updateDayDisplay c1State 300 "2025-05" c1Date "10.05.2025").isBlocked = true ∧
     (updateDayDisplay c1State 300 "2025-05" c1Date "10.05.2025").isSelected = false ∧
     (updateDayDisplay c1State 300 "2025-05" c1Date "10.05.2025").isActive = false ∧
     (updateDayDisplay c1State 300 "2025-05" c1Date "10.05.2025").price =
       getBlockedDatePrice c1State "10.05.2025" "2025-05") :=
  ⟨by decide, by decide, by decide,
    (C1_status_price_precedence c1State 300 "2025-05" c1Date "10.05.2025").2.2.2.2
      (by decide) (by decide) (by decide)⟩

/-! ### Claim C2 -/

/-- Counterexample to C2 as stated: a percent greater than 100 is *not*
rejected by `applyDiscount` of src/v5.js — 150% on base price 250 is
clamped to 100% and returns 0, not the unchanged base price. -/
theorem C2_v5_clamps_counterexample :
    V5.applyDiscount 250 (some 150) = 0 ∧ V5.applyDiscount 250 (some 150) ≠ 250 := by
  have h : V5.applyDiscount 250 (some 150) = 0 := by
    show jsRound ((250 : Int) * (1 - max 0 (min 100 (150 : ℚ)) / 100)) = 0
    rw [show ((250 : Int) : ℚ) * (1 - max 0 (min 100 (150 : ℚ)) / 100) = ((0 : Int) : ℚ) by
      norm_num]
    exact jsRound_intCast 0
  exact ⟨h, by rw [h]; decide⟩

/-- Claim C2 as amended: for a percent in `[0, 100]` both implementations
return `round(basePrice * (100 - percent) / 100)`; a non-numeric percent
is rejected by both, returning the base price unchanged; an out-of-range
percent is rejected (base price returned) by `applyDiscount` of
src/calendar.js, while `applyDiscount` of src/v5.js clamps it into
`[0, 100]`, so a negative percent still returns the base price but a
percent above 100 returns the fully-discounted price 0. -/
theorem C2_applyDiscount_amended :
    (∀ (bp : Int) (v : ℚ), 0 ≤ v → v ≤ 100 →
      CalJs.applyDiscount bp (some v) = jsRound ((bp : ℚ) * (100 - v) / 100) ∧
      V5.applyDiscount bp (some v) = jsRound ((bp : ℚ) * (100 - v) / 100)) ∧
    (∀ (bp : Int) (v : ℚ), v < 0 ∨ 100 < v → CalJs.applyDiscount bp (some v) = bp) ∧
    (∀ bp : Int, CalJs.applyDiscount bp none = bp ∧ V5.applyDiscount bp none = bp) ∧
    (∀ (bp : Int) (v : ℚ), 100 < v → V5.applyDiscount bp (some v) = 0) ∧
    (∀ (bp : Int) (v : ℚ), v < 0 → V5.applyDiscount bp (some v) = bp) := by
  refine ⟨fun bp v h0 h100 => ⟨?_, ?_⟩, fun bp v hout => ?_, fun bp => ⟨rfl, rfl⟩,
    fun bp v h100 => ?_, fun bp v h0 => ?_⟩
  · show (if v < 0 ∨ v > 100 then bp else jsRound ((bp : ℚ) * (100 - v) / 100)) = _
    rw [if_neg (by push_neg; exact ⟨h0, h100⟩)]
  · show jsRound ((bp : ℚ) * (1 - max 0 (min 100 v) / 100)) = _
    rw [min_eq_right h100, max_eq_right h0]
    congr 1
    ring
  · show (if v < 0 ∨ v > 100 then bp else jsRound ((bp : ℚ) * (100 - v) / 100)) = _
    rw [if_pos hout]
  · show jsRound ((bp : ℚ) * (1 - max 0 (min 100 v) / 100)) = 0
    rw [min_eq_left (le_of_lt h100)]
    rw [show ((bp : Int) : ℚ) * (1 - max 0 (100 : ℚ) / 100) = ((0 : Int) : ℚ) by norm_num]
    exact jsRound_intCast 0
  · show jsRound ((bp : ℚ) * (1 - max 0 (min 100 v) / 100)) = bp
    rw [min_eq_right (by linarith), max_eq_left (le_of_lt h0)]
    rw [show ((bp : Int) : ℚ) * (1 - (0 : ℚ) / 100) = ((bp : Int) : ℚ) by ring]
    exact jsRound_intCast bp

/-- Witness for C2 (amended): 20% on base price 250 gives 200 and 100%
gives 0 in the calendar.js implementation, via the amended theorem. -/
theorem C2_applyDiscount_amended_witness :
    (0 : ℚ) ≤ 20 ∧ (20 : ℚ) ≤ 100 ∧
    CalJs.applyDiscount 250 (some 20) = 200 ∧ CalJs.applyDiscount 250 (some 100) = 0 := by
  refine ⟨by norm_num, by norm_num, ?_, ?_⟩
  · rw [(C2_applyDiscount_amended.1 250 20 (by norm_num) (by norm_num)).1]
    rw [jsRound_eq]
    norm_num
  · rw [(C2_applyDiscount_amended.1 250 100 (by norm_num) (by norm_num)).1]
    rw [jsRound_eq]
    norm_num

/-! ### Claim C5 -/

/-- The C5 counterexample state: one stored range from Dec 31 1969 to
Jan 2 1970, whose interior contains the timestamp 0. -/
def c5State : CalendarData :=
  { dateRanges := [⟨createFullDate 31 12 1969, createFullDate 2 1 1970⟩]
    excludedDates := []
    dateDiscounts := []
    blockedDates := []
    basePrices := [] }

/-- Counterexample to C5 as stated: for the candidate pair
`(newStart, newEnd) = (0, 86400000)` (Jan 1 – Jan 2 1970) the stored
range satisfies the claimed overlap formula, yet `isRangeOverlap` returns
false because the falsy guard `!newStart` treats the zero timestamp as a
missing argument. -/
theorem C5_zero_guard_counterexample :
    isRangeOverlap c5State 0 86400000 = false ∧
    (∃ r ∈ c5State.dateRanges,
      (0 : Int) ≤ r.endD.timestamp ∧ (86400000 : Int) ≥ r.startD.timestamp) :=
  ⟨by decide, by decide⟩

/-- Claim C5 as amended: for every candidate pair of *nonzero* timestamps
`isRangeOverlap` returns true iff some stored range satisfies
`newStart <= range.end.timestamp && newEnd >= range.start.timestamp`; a
zero endpoint is treated as a missing argument and yields false. -/
theorem C5_isRangeOverlap_amended (cd : CalendarData) (s e : Int)
    (hs : s ≠ 0) (he : e ≠ 0) :
    isRangeOverlap cd s e = true ↔
      ∃ r ∈ cd.dateRanges, s ≤ r.endD.timestamp ∧ e ≥ r.startD.timestamp := by
  simp [isRangeOverlap, hs, he, List.any_eq_true]

/-- The C5 witness state: one stored range Jan 10 – Jan 15 2025. -/
def c5WitnessState : CalendarData :=
  { dateRanges := [⟨createFullDate 10 1 2025, createFullDate 15 1 2025⟩]
    excludedDates := []
    dateDiscounts := []
    blockedDates := []
    basePrices := [] }

/-- Witness for C5 (amended): against the stored range Jan 10–15 2025, a
strictly adjacent candidate Jan 16–20 does not overlap, a straddling
candidate Jan 14–18 does, and an identical candidate does. -/
theorem C5_isRangeOverlap_amended_witness :
    toTimestamp 2025 1 16 ≠ 0 ∧
    isRangeOverlap c5WitnessState (toTimestamp 2025 1 16) (toTimestamp 2025 1 20) = false ∧
    isRangeOverlap c5WitnessState (toTimestamp 2025 1 14) (toTimestamp 2025 1 18) = true ∧
    isRangeOverlap c5WitnessState (toTimestamp 2025 1 10) (toTimestamp 2025 1 15) = true := by
  refine ⟨by decide, ?_, ?_, ?_⟩
  · rw [← Bool.not_eq_true,
      C5_isRangeOverlap_amended c5WitnessState _ _ (by decide) (by decide)]
    decide
  · rw [C5_isRangeOverlap_amended c5WitnessState _ _ (by decide) (by decide)]
    decide
  · rw [C5_isRangeOverlap_amended c5WitnessState _ _ (by decide) (by decide)]
    decide

/-! ### Claim C9 -/

/-- The C9 counterexample state: one stored range Jan 1 – Jan 2 1970,
whose start has timestamp exactly 0. -/
def c9State : CalendarData :=
  { dateRanges := [⟨createFullDate 1 1 1970, createFullDate 2 1 1970⟩]
    excludedDates := []
    dateDiscounts := []
    blockedDates := []
    basePrices := [] }

/-- The date Jan 1 1970, whose timestamp is 0. -/
def c9Date : FullDate := createFullDate 1 1 1970

/-- Counterexample to C9 as stated: the date Jan 1 1970 (timestamp 0)
lies inside the stored range `[0, 86400000]`, yet `isDateInRanges`
returns false because the falsy guard `!fullDate.timestamp` rejects the
zero timestamp. -/
theorem C9_zero_guard_counterexample :
    isDateInRanges c9State c9Date = false ∧
    (∃ r ∈ c9State.dateRanges,
      r.startD.timestamp ≤ c9Date.timestamp ∧ c9Date.timestamp ≤ r.endD.timestamp) :=
  ⟨by decide, by decide⟩

/-- Claim C9 as amended: for every date with a *nonzero* timestamp,
`isDateInRanges` returns true iff the timestamp lies within
`[start.timestamp, end.timestamp]` of at least one stored range,
inclusive at both endpoints; a date with timestamp exactly 0 is treated
as invalid and always reported outside every range. -/
theorem C9_isDateInRanges_amended (cd : CalendarData) (fd : FullDate)
    (h : fd.timestamp ≠ 0) :
    isDateInRanges cd fd = true ↔
      ∃ r ∈ cd.dateRanges,
        r.startD.timestamp ≤ fd.timestamp ∧ fd.timestamp ≤ r.endD.timestamp := by
  simp [isDateInRanges, h, List.any_eq_true, and_comm]

/-- The C9 witness state: one stored range Jan 10 – Jan 15 2025. -/
def c9WitnessState : CalendarData :=
  { dateRanges := [⟨createFullDate 10 1 2025, createFullDate 15 1 2025⟩]
    excludedDates := []
    dateDiscounts := []
    blockedDates := []
    basePrices := [] }

/-- Witness for C9 (amended): both boundary timestamps of the stored
range Jan 10–15 2025 are in range, and the timestamps one millisecond
before the start and one millisecond after the end are not. -/
theorem C9_isDateInRanges_amended_witness :
    isDateInRanges c9WitnessState (createFullDate 10 1 2025) = true ∧
    isDateInRanges c9WitnessState (createFullDate 15 1 2025) = true ∧
    isDateInRanges c9WitnessState ⟨10, 1, 2025, toTimestamp 2025 1 10 - 1⟩ = false ∧
    isDateInRanges c9WitnessState ⟨15, 1, 2025, toTimestamp 2025 1 15 + 1⟩ = false := by
  refine ⟨?_, ?_, ?_, ?_⟩
  · rw [C9_isDateInRanges_amended c9WitnessState _ (by decide)]
    decide
  · rw [C9_isDateInRanges_amended c9WitnessState _ (by decide)]
    decide
  · rw [← Bool.not_eq_true, C9_isDateInRanges_amended c9WitnessState _ (by decide)]
    decide
  · rw [← Bool.not_eq_true, C9_isDateInRanges_amended c9WitnessState _ (by decide)]
    decide

/-! ### Claim C4 -/

/-- The C4 counterexample state: one stored range Jan 10 – Jan 15 2025
with a 200 discount stored for Jan 12, inside the range. -/
def c4State : CalendarData :=
  { dateRanges := [⟨createFullDate 10 1 2025, createFullDate 15 1 2025⟩]
    excludedDates := []
    dateDiscounts := [(toTimestamp 2025 1 12, 200)]
    blockedDates := []
    basePrices := [] }

/-- The idle selection state. -/
def c4Sel : TempSelection :=
  { start := none, startMonth := none, startYear := none, isRangeConfirmed := true }

/-- Counterexample to C4 as stated: `cancelLastRange` of src/v5.js pops
the most recent range but deletes no `dateDiscounts` entry — the discount
stored for Jan 12 2025, inside the popped range, survives. -/
theorem C4_v5_keeps_discounts_counterexample :
    (V5.cancelLastRange c4State c4Sel).1.dateRanges = [] ∧
    lookupDiscount (V5.cancelLastRange c4State c4Sel).1.dateDiscounts
      (toTimestamp 2025 1 12) = some 200 :=
  ⟨by decide, by decide⟩

/-- Claim C4 as amended: in src/calendar.js, `cancelLastRange` removes
exactly the most recently appended range and deletes the
`dateDiscounts` entry at every timestamp reached from the popped range's
start in exact 86400000 ms steps up to its end, leaving every other
entry, the exclusions and the blocked dates unchanged, and is a silent
no-op when no range exists.  In src/v5.js, `cancelLastRange` pops the
most recent range and resets the selection state but deletes no
`dateDiscounts` entry at all. -/
theorem C4_cancelLastRange_amended :
    (∀ (cd : CalendarData) (sel : TempSelection), cd.dateRanges = [] →
      CalJs.cancelLastRange cd sel = (cd, sel)) ∧
    (∀ (cd : CalendarData) (sel : TempSelection) (rs : List DateRange) (r : DateRange),
      cd.dateRanges = rs ++ [r] →
      (CalJs.cancelLastRange cd sel).1.dateRanges = rs ∧
      (∀ ts : Int,
        lookupDiscount (CalJs.cancelLastRange cd sel).1.dateDiscounts ts =
          if r.startD.timestamp ≤ ts ∧ ts ≤ r.endD.timestamp ∧
              (ts - r.startD.timestamp) % msPerDay = 0
          then none else lookupDiscount cd.dateDiscounts ts) ∧
      (CalJs.cancelLastRange cd sel).1.excludedDates = cd.excludedDates ∧
      (CalJs.cancelLastRange cd sel).1.blockedDates = cd.blockedDates) ∧
    (∀ (cd : CalendarData) (sel : TempSelection) (r : DateRange),
      cd.dateRanges.getLast? = some r →
      (V5.cancelLastRange cd sel).1.dateDiscounts = cd.dateDiscounts) := by
  refine ⟨fun cd sel h => ?_, fun cd sel rs r h => ?_, fun cd sel r h => ?_⟩
  · simp [CalJs.cancelLastRange, h]
  · have hlast : cd.dateRanges.getLast? = some r := by
      rw [h, List.getLast?_concat]
    refine ⟨?_, fun ts => ?_, ?_, ?_⟩
    · simp [CalJs.cancelLastRange, hlast, h, List.dropLast_concat]
    · simp only [CalJs.cancelLastRange, hlast]
      rw [lookupDiscount_foldl_deleteDiscount]
      simp only [mem_cancelTimestamps]
    · simp [CalJs.cancelLastRange, hlast]
    · simp [CalJs.cancelLastRange, hlast]
  · simp [V5.cancelLastRange, h]

/-- The C4 witness state: range Jan 10 – Jan 15 2025 with discounts at
Jan 12 (inside the range) and Jan 20 (outside it). -/
def c4WitnessState : CalendarData :=
  { dateRanges := [⟨createFullDate 10 1 2025, createFullDate 15 1 2025⟩]
    excludedDates := []
    dateDiscounts := [(toTimestamp 2025 1 12, 200), (toTimestamp 2025 1 20, 300)]
    blockedDates := []
    basePrices := [] }

/-- The idle selection state of the C4 witness. -/
def c4WitnessSel : TempSelection :=
  { start := none, startMonth := none, startYear := none, isRangeConfirmed := true }

/-- Witness for C4 (amended): cancelling the range Jan 10–15 2025 in the
calendar.js implementation empties the range list, deletes the Jan 12
discount and keeps the Jan 20 discount. -/
theorem C4_cancelLastRange_amended_witness :
    c4WitnessState.dateRanges = [] ++ [⟨createFullDate 10 1 2025, createFullDate 15 1 2025⟩] ∧
    (CalJs.cancelLastRange c4WitnessState c4WitnessSel).1.dateRanges = [] ∧
    lookupDiscount (CalJs.cancelLastRange c4WitnessState c4WitnessSel).1.dateDiscounts
      (toTimestamp 2025 1 12) = none ∧
    lookupDiscount (CalJs.cancelLastRange c4WitnessState c4WitnessSel).1.dateDiscounts
      (toTimestamp 2025 1 20) = some 300 := by
  have h := C4_cancelLastRange_amended.2.1 c4WitnessState c4WitnessSel []
    ⟨createFullDate 10 1 2025, createFullDate 15 1 2025⟩ (by decide)
  refine ⟨by decide, h.1, ?_, ?_⟩
  · rw [h.2.1 (toTimestamp 2025 1 12), if_pos (by decide)]
  · rw [h.2.1 (toTimestamp 2025 1 20), if_neg (by decide)]
    decide

/-! ### Claim C3 -/

theorem isDateBlocked_ext (cd1 cd2 : CalendarData) (h : cd1.blockedDates = cd2.blockedDates)
    (ds mk : String) : isDateBlocked cd1 ds mk = isDateBlocked cd2 ds mk := by
  rw [isDateBlocked, isDateBlocked, h]

theorem isDateExcluded_ext (cd1 cd2 : CalendarData) (h : cd1.excludedDates = cd2.excludedDates)
    (ts : Int) : isDateExcluded cd1 ts = isDateExcluded cd2 ts := by
  rw [isDateExcluded, isDateExcluded, h]

theorem updateDayDisplay_price_excluded (cd : CalendarData) (bp : Int) (mk : String)
    (fd : FullDate) (ds : String) (hb : isDateBlocked cd ds mk = false)
    (he : isDateExcluded cd fd.timestamp = true) :
    (updateDayDisplay cd bp mk fd ds).price = bp := by
  simp [updateDayDisplay, hb, he]

/-- The C3 counterexample state: range May 5 – May 15 2025 and a 0-valued
discount (the result of a 100% discount) stored for May 10. -/
def c3State : CalendarData :=
  { dateRanges := [⟨createFullDate 5 5 2025, createFullDate 15 5 2025⟩]
    excludedDates := []
    dateDiscounts := [(toTimestamp 2025 5 10, 0)]
    blockedDates := []
    basePrices := [] }

/-- The idle selection state of the C3 counterexample. -/
def c3Sel : TempSelection :=
  { start := none, startMonth := none, startYear := none, isRangeConfirmed := true }

/-- Counterexample to C3 as stated: clicking May 10 2025 — inside the
confirmed range and not yet excluded — does exclude the day, but the
0-valued discount entry stored for it is *not* deleted, because
`excludeDay` guards the deletion with JavaScript truthiness
(`if (this.calendarData.dateDiscounts[timestamp])`), which a stored 0
fails. -/
theorem C3_zero_discount_survives_counterexample :
    isDateInRanges c3State (createFullDate 10 5 2025) = true ∧
    isDateExcluded c3State (toTimestamp 2025 5 10) = false ∧
    (NC.handleDayClick c3State c3Sel 10 5 2025 300).1.excludedDates.contains
      (toTimestamp 2025 5 10) = true ∧
    lookupDiscount (NC.handleDayClick c3State c3Sel 10 5 2025 300).1.dateDiscounts
      (toTimestamp 2025 5 10) = some 0 :=
  ⟨by decide, by decide, by decide, by decide⟩

/-- Claim C3 as amended: clicking a day that lies inside an
already-confirmed range and is not yet excluded (and is not blocked, and
is clicked while no pick is pending) adds its timestamp to
`excludedDates` and deletes the discount entry for that timestamp
provided its stored value is nonzero (a 0-valued entry, produced by a
100% discount, survives the truthiness-guarded deletion); every stored
range is left untouched, and the effective price of the date afterwards
equals the base price regardless of any discount previously set. -/
theorem C3_exclusion_amended (cd : CalendarData) (sel : TempSelection)
    (day month year bp : Int)
    (hconf : sel.isRangeConfirmed = true)
    (hnb : isDateBlocked cd (formatDate day month year) (monthKeyStr year month) = false)
    (hin : isDateInRanges cd (createFullDate day month year) = true)
    (hnex : isDateExcluded cd (createFullDate day month year).timestamp = false) :
    (NC.handleDayClick cd sel day month year bp).1.excludedDates.contains
      (createFullDate day month year).timestamp = true ∧
    (∀ v, lookupDiscount cd.dateDiscounts (createFullDate day month year).timestamp = some v →
      v ≠ 0 →
      lookupDiscount (NC.handleDayClick cd sel day month year bp).1.dateDiscounts
        (createFullDate day month year).timestamp = none) ∧
    (NC.handleDayClick cd sel day month year bp).1.dateRanges = cd.dateRanges ∧
    (updateDayDisplay (NC.handleDayClick cd sel day month year bp).1 bp
      (monthKeyStr year month) (createFullDate day month year)
      (formatDate day month year)).price = bp := by
  have hts : (createFullDate day month year).timestamp ≠ 0 := by
    intro h0
    rw [isDateInRanges, if_pos (by simp [h0])] at hin
    exact Bool.false_ne_true hin
  have hcontains : cd.excludedDates.contains (createFullDate day month year).timestamp = false := by
    rw [isDateExcluded, if_neg (by simp [hts])] at hnex
    exact hnex
  have hnotmem : (createFullDate day month year).timestamp ∉ cd.excludedDates := by
    simpa using hcontains
  have hres1 : (NC.handleDayClick cd sel day month year bp).1 =
      NC.excludeDay cd (createFullDate day month year) day month year
        (monthKeyStr year month) bp := by
    rw [NC.handleDayClick]
    rw [if_neg (by simp [hconf])]
    rw [if_neg (by simp [hnb])]
    rw [if_pos (by simp [hin, hnex])]
  have hexcl : (NC.excludeDay cd (createFullDate day month year) day month year
      (monthKeyStr year month) bp).excludedDates =
      (createFullDate day month year).timestamp :: cd.excludedDates := by
    rw [NC.excludeDay]
    simp [hnotmem]
  refine ⟨?_, fun v hv hv0 => ?_, ?_, ?_⟩
  · rw [hres1]
    simp [hexcl]
  · rw [hres1]
    show lookupDiscount (NC.excludeDay cd (createFullDate day month year) day month year
      (monthKeyStr year month) bp).dateDiscounts (createFullDate day month year).timestamp = none
    rw [NC.excludeDay]
    simp only [hv]
    rw [if_neg (by simp [hv0])]
    exact lookupDiscount_deleteDiscount_self _ _
  · rw [hres1]
    rfl
  · rw [hres1]
    refine updateDayDisplay_price_excluded _ _ _ _ _ ?_ ?_
    · have hbd : (NC.excludeDay cd (createFullDate day month year) day month year
          (monthKeyStr year month) bp).blockedDates = cd.blockedDates := rfl
      rw [isDateBlocked_ext _ cd hbd]
      exact hnb
    · rw [isDateExcluded_ext _ ({ cd with excludedDates :=
        (createFullDate day month year).timestamp :: cd.excludedDates }) (by simpa using hexcl)]
      rw [isDateExcluded, if_neg (by simp [hts])]
      simp

/-- The C3 witness state: range May 5 – May 15 2025 and a 200 discount
stored for May 10. -/
def c3WitnessState : CalendarData :=
  { dateRanges := [⟨createFullDate 5 5 2025, createFullDate 15 5 2025⟩]
    excludedDates := []
    dateDiscounts := [(toTimestamp 2025 5 10, 200)]
    blockedDates := []
    basePrices := [] }

/-- The idle selection state of the C3 witness. -/
def c3WitnessSel : TempSelection :=
  { start := none, startMonth := none, startYear := none, isRangeConfirmed := true }

/-- Witness for C3 (amended): clicking the in-range, discounted (200),
unexcluded day May 10 2025 excludes it, deletes the nonzero discount,
keeps the range and shows the base price 300. -/
theorem C3_exclusion_amended_witness :
    c3WitnessSel.isRangeConfirmed = true ∧
    isDateInRanges c3WitnessState (createFullDate 10 5 2025) = true ∧
    ((NC.handleDayClick c3WitnessState c3WitnessSel 10 5 2025 300).1.excludedDates.contains
      (createFullDate 10 5 2025).timestamp = true ∧
     lookupDiscount (NC.handleDayClick c3WitnessState c3WitnessSel 10 5 2025 300).1.dateDiscounts
      (createFullDate 10 5 2025).timestamp = none ∧
     (NC.handleDayClick c3WitnessState c3WitnessSel 10 5 2025 300).1.dateRanges =
       c3WitnessState.dateRanges ∧
     (updateDayDisplay (NC.handleDayClick c3WitnessState c3WitnessSel 10 5 2025 300).1 300
       (monthKeyStr 2025 5) (createFullDate 10 5 2025) (formatDate 10 5 2025)).price = 300) := by
  have h := C3_exclusion_amended c3WitnessState c3WitnessSel 10 5 2025 300
    (by decide) (by decide) (by decide) (by decide)
  exact ⟨by decide, by decide,
    h.1, h.2.1 200 (by decide) (by decide), h.2.2.1, h.2.2.2⟩

/-! ### Claim C6 -/

theorem NC_completeRangeSelection_inv (cd : CalendarData) (sel : TempSelection)
    (fd : FullDate) (hinv : RangesInv cd) :
    RangesInv (NC.completeRangeSelection cd sel fd).1 := by
  rcases sel with ⟨st, sm, sy, rc⟩
  rcases st with _ | s
  · exact hinv
  rcases sm with _ | m2
  · exact hinv
  rcases sy with _ | y2
  · exact hinv
  show RangesInv (NC.completeRangeSelectionGo cd ⟨some s, some m2, some y2, rc⟩ fd s m2 y2).1
  rw [NC.completeRangeSelectionGo]
  split_ifs with hg h
  · exact hinv
  · intro r hr
    simp only [List.mem_append, List.mem_singleton] at hr
    rcases hr with hr | rfl
    · exact hinv r hr
    · exact le_of_lt h
  · intro r hr
    simp only [List.mem_append, List.mem_singleton] at hr
    rcases hr with hr | rfl
    · exact hinv r hr
    · exact le_of_not_lt h

theorem V5_handleDayClick_inv (cd : CalendarData) (sel : TempSelection)
    (day month year : Int) (hinv : RangesInv cd) :
    RangesInv (V5.handleDayClick cd sel day month year).1 := by
  rcases sel with ⟨st, sm, sy, rc⟩
  rw [V5.handleDayClick]
  split_ifs with hb hc
  · exact hinv
  · exact hinv
  rcases st with _ | s
  · exact hinv
  rcases sm with _ | m2
  · exact hinv
  rcases sy with _ | y2
  · exact hinv
  simp only []
  split_ifs with hcross hov
  · exact hinv
  · exact hinv
  · intro r hr
    simp only [List.mem_append, List.mem_singleton] at hr
    rcases hr with hr | rfl
    · exact hinv r hr
    · show toTimestamp year month (min s day) ≤ toTimestamp year month (max s day)
      exact toTimestamp_day_mono (min_le_max)

/-- Claim C6: every mutator preserves the invariant that every stored
range satisfies `start.timestamp <= end.timestamp`.  At creation the
endpoints are ordered: `completeRangeSelection` of src/new_calendar.js
swaps the clicked endpoints by timestamp, `handleDayClick` of src/v5.js
takes the min/max of the clicked days (and the timestamp is monotone in
the day); `cancelLastRange` only drops the last range, and the exclusion
path of `handleDayClick` of src/new_calendar.js leaves the ranges
untouched. -/
theorem C6_range_ordering_invariant :
    (∀ (cd : CalendarData) (sel : TempSelection) (fd : FullDate),
      RangesInv cd → RangesInv (NC.completeRangeSelection cd sel fd).1) ∧
    (∀ d1 d2 m y : Int,
      (createFullDate (min d1 d2) m y).timestamp ≤ (createFullDate (max d1 d2) m y).timestamp) ∧
    (∀ (cd : CalendarData) (sel : TempSelection) (day month year : Int),
      RangesInv cd → RangesInv (V5.handleDayClick cd sel day month year).1) ∧
    (∀ (cd : CalendarData) (sel : TempSelection),
      RangesInv cd → RangesInv (CalJs.cancelLastRange cd sel).1) ∧
    (∀ (cd : CalendarData) (sel : TempSelection) (day month year bp : Int),
      RangesInv cd → RangesInv (NC.handleDayClick cd sel day month year bp).1) := by
  refine ⟨NC_completeRangeSelection_inv, fun d1 d2 m y => ?_, V5_handleDayClick_inv,
    fun cd sel hinv => ?_, fun cd sel day month year bp hinv => ?_⟩
  · show toTimestamp y m (min d1 d2) ≤ toTimestamp y m (max d1 d2)
    exact toTimestamp_day_mono (min_le_max)
  · rw [CalJs.cancelLastRange]
    cases hlast : cd.dateRanges.getLast? with
    | none => exact hinv
    | some r =>
        intro r2 hr2
        exact hinv r2 (List.dropLast_subset _ hr2)
  · rw [NC.handleDayClick]
    by_cases h1 : sel.isRangeConfirmed = false
    · rw [if_pos h1]
      exact hinv
    rw [if_neg h1]
    by_cases h2 : isDateBlocked cd (formatDate day month year) (monthKeyStr year month) = true
    · rw [if_pos h2]
      exact hinv
    rw [if_neg h2]
    by_cases h3 : (isDateInRanges cd (createFullDate day month year) &&
        !(isDateExcluded cd (createFullDate day month year).timestamp)) = true
    · rw [if_pos h3]
      intro r hr
      exact hinv r hr
    rw [if_neg h3]
    by_cases h4 : sel.start = none
    · rw [if_pos h4]
      intro r hr
      exact hinv r hr
    · rw [if_neg h4]
      exact NC_completeRangeSelection_inv cd sel _ hinv

/-- The C6 witness state: no stored range yet. -/
def c6State : CalendarData :=
  { dateRanges := [], excludedDates := [], dateDiscounts := [], blockedDates := []
    basePrices := [] }

/-- A pending pick whose recorded start (Jan 20 2025) is *later* than the
day clicked second. -/
def c6Sel : TempSelection :=
  { start := some 20, startMonth := some 1, startYear := some 2025, isRangeConfirmed := true }

/-- Witness for C6: completing a pick whose endpoints were clicked in
reverse order (start Jan 20, end Jan 10 2025) stores the swapped range
Jan 10 – Jan 20, and the invariant holds on the result; the v5
second-click path from the same reversed pair also preserves the
invariant. -/
theorem C6_range_ordering_invariant_witness :
    RangesInv c6State ∧
    (NC.completeRangeSelection c6State c6Sel (createFullDate 10 1 2025)).1.dateRanges =
      [⟨createFullDate 10 1 2025, createFullDate 20 1 2025⟩] ∧
    RangesInv (NC.completeRangeSelection c6State c6Sel (createFullDate 10 1 2025)).1 ∧
    RangesInv (V5.handleDayClick c6State
      ⟨some 20, some 1, some 2025, false⟩ 10 1 2025).1 := by
  have h0 : RangesInv c6State := by
    unfold RangesInv
    decide
  exact ⟨h0, by decide,
    C6_range_ordering_invariant.1 c6State c6Sel (createFullDate 10 1 2025) h0,
    C6_range_ordering_invariant.2.2.1 c6State ⟨some 20, some 1, some 2025, false⟩
      10 1 2025 h0⟩

/-! ### Claim C7 -/

/-- The C7 counterexample state: one stored range Jan 5 – Jan 8 2025. -/
def c7State : CalendarData :=
  { dateRanges := [⟨createFullDate 5 1 2025, createFullDate 8 1 2025⟩]
    excludedDates := []
    dateDiscounts := []
    blockedDates := []
    basePrices := [] }

/-- A pending pick with recorded start Jan 10 2025. -/
def c7Sel : TempSelection :=
  { start := some 10, startMonth := some 1, startYear := some 2025, isRangeConfirmed := false }

/-- Counterexample to C7 as stated: the second click on Jan 7 2025 makes
the candidate Jan 7–10 overlap the stored range Jan 5–8, and v5's
`handleDayClick` rejects it — nothing is appended and `isRangeConfirmed`
becomes true — but the recorded start is *not* cleared (it remains
`some 10`).  Moreover `completeRangeSelection` of src/new_calendar.js
appends the same overlapping candidate instead of rejecting it. -/
theorem C7_reject_keeps_start_counterexample :
    isRangeOverlap c7State (createFullDate 7 1 2025).timestamp
      (createFullDate 10 1 2025).timestamp = true ∧
    (V5.handleDayClick c7State c7Sel 7 1 2025).1.dateRanges = c7State.dateRanges ∧
    (V5.handleDayClick c7State c7Sel 7 1 2025).2.isRangeConfirmed = true ∧
    (V5.handleDayClick c7State c7Sel 7 1 2025).2.start = some 10 ∧
    (NC.completeRangeSelection c7State c7Sel (createFullDate 7 1 2025)).1.dateRanges =
      c7State.dateRanges ++ [⟨createFullDate 7 1 2025, createFullDate 10 1 2025⟩] :=
  ⟨by decide, by decide, by decide, by decide, by decide⟩

/-- Claim C7 as amended: in src/v5.js, a second click in a different
month or year, or a candidate overlapping a stored range, is rejected —
the stored ranges are unchanged and `isRangeConfirmed` becomes true — but
the recorded start fields are left in place rather than cleared.  In
src/new_calendar.js, `completeRangeSelection` does not reject overlaps:
the overlap test only logs a warning and the endpoint-sorted candidate is
appended whenever the clicked end date's timestamp and the recorded start
day are nonzero; a zero (falsy) end timestamp or start day hits the early
error return of line 2165 and nothing changes. -/
theorem C7_rejection_amended :
    (∀ (cd : CalendarData) (s sm sy day month year : Int),
      isDateBlocked cd (formatDate day month year) (monthKeyStr year month) = false →
      sm ≠ month ∨ sy ≠ year →
      V5.handleDayClick cd ⟨some s, some sm, some sy, false⟩ day month year =
        (cd, ⟨some s, some sm, some sy, true⟩)) ∧
    (∀ (cd : CalendarData) (s day month year : Int),
      isDateBlocked cd (formatDate day month year) (monthKeyStr year month) = false →
      isRangeOverlap cd (createFullDate (min s day) month year).timestamp
        (createFullDate (max s day) month year).timestamp = true →
      V5.handleDayClick cd ⟨some s, some month, some year, false⟩ day month year =
        (cd, ⟨some s, some month, some year, true⟩)) ∧
    (∀ (cd : CalendarData) (s sm sy : Int) (fd : FullDate),
      fd.timestamp ≠ 0 → s ≠ 0 →
      (NC.completeRangeSelection cd ⟨some s, some sm, some sy, false⟩ fd).1.dateRanges =
        cd.dateRanges ++ [if (createFullDate s sm sy).timestamp > fd.timestamp
          then ⟨fd, createFullDate s sm sy⟩ else ⟨createFullDate s sm sy, fd⟩]) ∧
    (∀ (cd : CalendarData) (s sm sy : Int) (fd : FullDate),
      fd.timestamp = 0 ∨ s = 0 →
      NC.completeRangeSelection cd ⟨some s, some sm, some sy, false⟩ fd =
        (cd, ⟨some s, some sm, some sy, false⟩)) := by
  refine ⟨fun cd s sm sy day month year hb hcross => ?_,
    fun cd s day month year hb hov => ?_, fun cd s sm sy fd hts hs => ?_,
    fun cd s sm sy fd hg => ?_⟩
  · rw [V5.handleDayClick]
    rw [if_neg (by simp [hb])]
    simp only [Bool.false_eq_true, if_false]
    rw [if_pos hcross]
  · rw [V5.handleDayClick]
    rw [if_neg (by simp [hb])]
    simp only [Bool.false_eq_true, if_false]
    rw [if_neg (by simp)]
    rw [if_pos hov]
  · show (NC.completeRangeSelectionGo cd ⟨some s, some sm, some sy, false⟩
      fd s sm sy).1.dateRanges = _
    rw [NC.completeRangeSelectionGo, if_neg (by simp [hts, hs])]
  · show NC.completeRangeSelectionGo cd ⟨some s, some sm, some sy, false⟩ fd s sm sy = _
    rcases hg with h | h
    · rw [NC.completeRangeSelectionGo, if_pos (by simp [h])]
    · rw [NC.completeRangeSelectionGo, if_pos (by simp [h])]

/-- The C7 witness state: one stored range Mar 5 – Mar 8 2025. -/
def c7WitnessState : CalendarData :=
  { dateRanges := [⟨createFullDate 5 3 2025, createFullDate 8 3 2025⟩]
    excludedDates := []
    dateDiscounts := []
    blockedDates := []
    basePrices := [] }

/-- Witness for C7 (amended): a cross-month second click (recorded start
in February, click in March 2025) is rejected with the start left in
place; an overlapping same-month candidate (Mar 6–10) is rejected the
same way; new_calendar's `completeRangeSelection` appends the
non-overlapping candidate Mar 12–16 (nonzero timestamps) and is a no-op
when the clicked end date has timestamp 0 (Jan 1 1970). -/
theorem C7_rejection_amended_witness :
    isDateBlocked c7WitnessState (formatDate 10 3 2025) (monthKeyStr 2025 3) = false ∧
    V5.handleDayClick c7WitnessState ⟨some 12, some 2, some 2025, false⟩ 10 3 2025 =
      (c7WitnessState, ⟨some 12, some 2, some 2025, true⟩) ∧
    isRangeOverlap c7WitnessState (createFullDate (min 10 6) 3 2025).timestamp
      (createFullDate (max 10 6) 3 2025).timestamp = true ∧
    V5.handleDayClick c7WitnessState ⟨some 10, some 3, some 2025, false⟩ 6 3 2025 =
      (c7WitnessState, ⟨some 10, some 3, some 2025, true⟩) ∧
    (createFullDate 16 3 2025).timestamp ≠ 0 ∧
    (NC.completeRangeSelection c7WitnessState ⟨some 12, some 3, some 2025, false⟩
      (createFullDate 16 3 2025)).1.dateRanges =
      c7WitnessState.dateRanges ++ [⟨createFullDate 12 3 2025, createFullDate 16 3 2025⟩] ∧
    NC.completeRangeSelection c7WitnessState ⟨some 12, some 3, some 2025, false⟩
      (createFullDate 1 1 1970) =
      (c7WitnessState, ⟨some 12, some 3, some 2025, false⟩) := by
  refine ⟨by decide, ?_, by decide, ?_, by decide, ?_, ?_⟩
  · exact C7_rejection_amended.1 c7WitnessState 12 2 2025 10 3 2025 (by decide)
      (by decide)
  · exact C7_rejection_amended.2.1 c7WitnessState 10 6 3 2025 (by decide) (by decide)
  · rw [C7_rejection_amended.2.2.1 c7WitnessState 12 3 2025 (createFullDate 16 3 2025)
      (by decide) (by decide)]
    decide
  · exact C7_rejection_amended.2.2.2 c7WitnessState 12 3 2025 (createFullDate 1 1 1970)
      (Or.inl (by decide))

/-! ### Claim C8 -/

theorem pad2_inj31 : ∀ a ∈ Finset.Icc (1 : ℤ) 31, ∀ b ∈ Finset.Icc (1 : ℤ) 31,
    pad2 a = pad2 b → a = b := by decide

theorem formatDate_inj_day (m y : Int) {d1 d2 : Int}
    (h1 : 1 ≤ d1) (h2 : d1 ≤ 31) (h3 : 1 ≤ d2) (h4 : d2 ≤ 31)
    (h : formatDate d1 m y = formatDate d2 m y) : d1 = d2 := by
  apply pad2_inj31 d1 (Finset.mem_Icc.mpr ⟨h1, h2⟩) d2 (Finset.mem_Icc.mpr ⟨h3, h4⟩)
  apply String.ext
  have hd := congrArg String.data h
  simp only [formatDate, String.data_append, List.append_assoc] at hd
  exact List.append_cancel_right hd

theorem dayListOfMonth_bounds {y m d : Int} (hd : d ∈ dayListOfMonth y m) :
    1 ≤ d ∧ d ≤ (daysInMonth y m).toNat := by
  obtain ⟨i, hi, rfl⟩ := List.mem_map.mp hd
  rw [List.mem_range] at hi
  omega

theorem dayListOfMonth_nodup (y m : Int) : (dayListOfMonth y m).Nodup := by
  rw [dayListOfMonth]
  refine List.Nodup.map_on ?_ (List.nodup_range _)
  intro a _ b _ hab
  omega

theorem monthDates_nodup (y m : Int) (h31 : (daysInMonth y m).toNat ≤ 31) :
    (monthDates y m).Nodup := by
  rw [monthDates]
  refine List.Nodup.map_on ?_ (dayListOfMonth_nodup y m)
  intro a ha b hb hf
  obtain ⟨ha1, ha2⟩ := dayListOfMonth_bounds ha
  obtain ⟨hb1, hb2⟩ := dayListOfMonth_bounds hb
  exact formatDate_inj_day m y ha1 (by omega) hb1 (by omega) hf

theorem ensurePricesStep_preserve {bp : Int} {ps : List PriceEntry} {d : String}
    {e : PriceEntry} (he : e ∈ ps) : e ∈ V5.ensurePricesStep bp ps d := by
  rw [V5.ensurePricesStep]
  split_ifs
  · exact he
  · exact List.mem_append_left _ he

theorem ensurePricesStep_mem_inv {bp : Int} {ps : List PriceEntry} {d : String}
    {e : PriceEntry} (he : e ∈ V5.ensurePricesStep bp ps d) :
    e ∈ ps ∨ e = ⟨d, bp⟩ := by
  rw [V5.ensurePricesStep] at he
  split_ifs at he
  · exact Or.inl he
  · rcases List.mem_append.mp he with h | h
    · exact Or.inl h
    · exact Or.inr (by simpa using h)

theorem ensurePricesStep_covers (bp : Int) (ps : List PriceEntry) (d : String) :
    ∃ e ∈ V5.ensurePricesStep bp ps d, e.date = d := by
  rw [V5.ensurePricesStep]
  split_ifs with h
  · obtain ⟨e, he, hde⟩ := List.any_eq_true.mp h
    exact ⟨e, he, by simpa using hde⟩
  · exact ⟨⟨d, bp⟩, List.mem_append_right _ (by simp), rfl⟩

theorem ensureFold_preserve {bp : Int} (l : List String) (ps : List PriceEntry)
    {e : PriceEntry} (he : e ∈ ps) : e ∈ l.foldl (V5.ensurePricesStep bp) ps := by
  induction l generalizing ps with
  | nil => exact he
  | cons hd tl ih => exact ih _ (ensurePricesStep_preserve he)

theorem ensureFold_mem_inv {bp : Int} (l : List String) (ps : List PriceEntry)
    {e : PriceEntry} (he : e ∈ l.foldl (V5.ensurePricesStep bp) ps) :
    e ∈ ps ∨ ∃ d ∈ l, e = ⟨d, bp⟩ := by
  induction l generalizing ps with
  | nil => exact Or.inl he
  | cons hd tl ih =>
      rcases ih _ he with h | ⟨d, hdl, rfl⟩
      · rcases ensurePricesStep_mem_inv h with h2 | rfl
        · exact Or.inl h2
        · exact Or.inr ⟨hd, by simp, rfl⟩
      · exact Or.inr ⟨d, by simp [hdl], rfl⟩

theorem ensureFold_covers {bp : Int} (l : List String) (ps : List PriceEntry)
    {d : String} (hd : d ∈ l) :
    ∃ e ∈ l.foldl (V5.ensurePricesStep bp) ps, e.date = d := by
  induction l generalizing ps with
  | nil => cases hd
  | cons hd2 tl ih =>
      rcases List.mem_cons.mp hd with rfl | hmem
      · obtain ⟨e, he, hde⟩ := ensurePricesStep_covers bp ps d
        exact ⟨e, ensureFold_preserve tl _ he, hde⟩
      · exact ih _ hmem

theorem ensureFold_id {bp : Int} (l : List String) (ps : List PriceEntry)
    (h : ∀ d ∈ l, ps.any (fun e => e.date == d) = true) :
    l.foldl (V5.ensurePricesStep bp) ps = ps := by
  induction l with
  | nil => rfl
  | cons hd tl ih =>
      have hstep : V5.ensurePricesStep bp ps hd = ps := by
        rw [V5.ensurePricesStep, if_pos (h hd (by simp))]
      rw [List.foldl_cons, hstep]
      exact ih fun d hdl => h d (by simp [hdl])

theorem ensureFold_dates_nodup {bp : Int} (l : List String) (ps : List PriceEntry)
    (h : (ps.map PriceEntry.date).Nodup) :
    ((l.foldl (V5.ensurePricesStep bp) ps).map PriceEntry.date).Nodup := by
  induction l generalizing ps with
  | nil => exact h
  | cons hd tl ih =>
      apply ih
      rw [V5.ensurePricesStep]
      split_ifs with hin
      · exact h
      · rw [List.map_append]
        rw [List.nodup_append]
        refine ⟨h, by simp, ?_⟩
        intro a ha hb
        simp only [List.map_cons, List.map_nil, List.mem_singleton] at hb
        subst hb
        obtain ⟨e, he, hde⟩ := List.mem_map.mp ha
        have hin2 : (ps.any fun e => e.date == a) = false := by
          cases hany : ps.any fun e => e.date == a
          · rfl
          · exact absurd hany hin
        have := List.any_eq_false.mp hin2 e he
        simp only [beq_iff_eq] at this
        exact this hde

/-- Counterexample to C8 as stated: running v5's `ensureBasePrices` on an
empty February 2025 month record whose stored `defaultCost` is 100 while
the current base price is 200 fills every created entry at 200 — not at
the month's `defaultCost` — although no day was previously overridden. -/
theorem C8_fill_price_counterexample :
    (V5.ensureBasePrices (some ⟨[], 100⟩) 2025 2 200).defaultCost = 100 ∧
    (V5.ensureBasePrices (some ⟨[], 100⟩) 2025 2 200).prices.length = 28 ∧
    (∀ e ∈ (V5.ensureBasePrices (some ⟨[], 100⟩) 2025 2 200).prices,
      e.price = 200 ∧ e.price ≠ 100) :=
  ⟨by decide, by decide, by decide⟩

/-- Claim C8 as amended: after v5's `ensureBasePrices(monthKey)` runs,
the month's price list has an entry for every calendar day of the month;
pre-existing (overridden) entries are kept unchanged, every entry is
either pre-existing or filled at the *current base price* passed in — the
value of `getBasePrice()`, which need not equal the month's stored
`defaultCost` — and, provided the pre-existing entries are distinct dates
of that month, the list ends up with exactly `daysInMonth` entries;
running `ensureBasePrices` again changes nothing, and the month's
`defaultCost` field is not modified. -/
theorem C8_ensureBasePrices_amended :
    (∀ (md : MonthData) (y m bp : Int) (d : String), d ∈ monthDates y m →
      ∃ e ∈ (V5.ensureBasePrices (some md) y m bp).prices, e.date = d) ∧
    (∀ (md : MonthData) (y m bp : Int) (e : PriceEntry), e ∈ md.prices →
      e ∈ (V5.ensureBasePrices (some md) y m bp).prices) ∧
    (∀ (md : MonthData) (y m bp : Int) (e : PriceEntry),
      e ∈ (V5.ensureBasePrices (some md) y m bp).prices →
      e ∈ md.prices ∨ (e.price = bp ∧ e.date ∈ monthDates y m)) ∧
    (∀ (md : MonthData) (y m bp : Int),
      (md.prices.map PriceEntry.date).Nodup →
      (∀ e ∈ md.prices, e.date ∈ monthDates y m) →
      (daysInMonth y m).toNat ≤ 31 →
      (V5.ensureBasePrices (some md) y m bp).prices.length = (daysInMonth y m).toNat) ∧
    (∀ (md : Option MonthData) (y m bp : Int),
      V5.ensureBasePrices (some (V5.ensureBasePrices md y m bp)) y m bp =
        V5.ensureBasePrices md y m bp) ∧
    (∀ (md : MonthData) (y m bp : Int),
      (V5.ensureBasePrices (some md) y m bp).defaultCost = md.defaultCost) := by
  refine ⟨fun md y m bp d hd => ensureFold_covers _ _ hd,
    fun md y m bp e he => ensureFold_preserve _ _ he,
    fun md y m bp e he => ?_, fun md y m bp hnodup hsub h31 => ?_,
    fun md y m bp => ?_, fun md y m bp => rfl⟩
  · rcases ensureFold_mem_inv _ _ he with h | ⟨d, hdl, rfl⟩
    · exact Or.inl h
    · exact Or.inr ⟨rfl, hdl⟩
  · have hln : (monthDates y m).Nodup := monthDates_nodup y m h31
    have hrn := @ensureFold_dates_nodup bp (monthDates y m) md.prices hnodup
    have hsub1 : ∀ x ∈ ((monthDates y m).foldl (V5.ensurePricesStep bp) md.prices).map
        PriceEntry.date, x ∈ monthDates y m := by
      intro x hx
      obtain ⟨e, he, rfl⟩ := List.mem_map.mp hx
      rcases ensureFold_mem_inv _ _ he with h | ⟨d, hdl, rfl⟩
      · exact hsub e h
      · exact hdl
    have hsub2 : ∀ d ∈ monthDates y m,
        d ∈ ((monthDates y m).foldl (V5.ensurePricesStep bp) md.prices).map
          PriceEntry.date := by
      intro d hd
      obtain ⟨e, he, hde⟩ := @ensureFold_covers bp (monthDates y m) md.prices _ hd
      exact List.mem_map.mpr ⟨e, he, hde⟩
    have hfin : (((monthDates y m).foldl (V5.ensurePricesStep bp) md.prices).map
        PriceEntry.date).toFinset = (monthDates y m).toFinset := by
      ext x
      simp only [List.mem_toFinset]
      exact ⟨fun h => hsub1 x h, fun h => hsub2 x h⟩
    have hlen : (((monthDates y m).foldl (V5.ensurePricesStep bp) md.prices).map
        PriceEntry.date).length = (monthDates y m).length := by
      rw [← List.toFinset_card_of_nodup hrn, ← List.toFinset_card_of_nodup hln, hfin]
    have hml : (monthDates y m).length = (daysInMonth y m).toNat := by
      simp [monthDates, dayListOfMonth]
    rw [List.length_map] at hlen
    show ((monthDates y m).foldl (V5.ensurePricesStep bp) md.prices).length = _
    omega
  · have hall : ∀ d ∈ monthDates y m,
        (V5.ensureBasePrices md y m bp).prices.any (fun e => e.date == d) = true := by
      intro d hd
      rcases md with _ | md0
      · obtain ⟨e, he, hde⟩ := @ensureFold_covers bp (monthDates y m) [] _ hd
        exact List.any_eq_true.mpr ⟨e, he, by simp [hde]⟩
      · obtain ⟨e, he, hde⟩ := @ensureFold_covers bp (monthDates y m) md0.prices _ hd
        exact List.any_eq_true.mpr ⟨e, he, by simp [hde]⟩
    show ({ V5.ensureBasePrices md y m bp with
      prices := (monthDates y m).foldl (V5.ensurePricesStep bp)
        (V5.ensureBasePrices md y m bp).prices } : MonthData) = _
    rw [ensureFold_id _ _ hall]

/-- Witness for C8 (amended): filling the empty February 2025 record at
base price 200 yields exactly 28 entries and a second run changes
nothing. -/
theorem C8_ensureBasePrices_amended_witness :
    (((⟨[], 100⟩ : MonthData).prices.map PriceEntry.date).Nodup ∧
      (∀ e ∈ (⟨[], 100⟩ : MonthData).prices, e.date ∈ monthDates 2025 2) ∧
      (daysInMonth 2025 2).toNat ≤ 31) ∧
    (V5.ensureBasePrices (some ⟨[], 100⟩) 2025 2 200).prices.length =
      (daysInMonth 2025 2).toNat ∧
    V5.ensureBasePrices (some (V5.ensureBasePrices (some ⟨[], 100⟩) 2025 2 200)) 2025 2 200 =
      V5.ensureBasePrices (some ⟨[], 100⟩) 2025 2 200 :=
  ⟨⟨by decide, by decide, by decide⟩,
    C8_ensureBasePrices_amended.2.2.2.1 ⟨[], 100⟩ 2025 2 200 (by decide) (by decide) (by decide),
    C8_ensureBasePrices_amended.2.2.2.2.1 (some ⟨[], 100⟩) 2025 2 200⟩

/-! ### Claim C10 -/

theorem CalJs_applyDiscount_zero (bp : Int) : CalJs.applyDiscount bp (some 0) = bp := by
  show (if (0 : ℚ) < 0 ∨ (0 : ℚ) > 100 then bp else jsRound ((bp : ℚ) * (100 - 0) / 100)) = bp
  rw [if_neg (by norm_num)]
  rw [show ((bp : Int) : ℚ) * (100 - 0) / 100 = ((bp : Int) : ℚ) by ring]
  exact jsRound_intCast bp

theorem weekendStep_fst_lookup_other (cd : CalendarData) (y m : Int) (mk : String)
    (bp disc : Int) (acc : List (Int × Int) × List (String × MonthData)) (day k : Int)
    (hk : k ≠ toTimestamp y m day) :
    lookupDiscount (CalJs.weekendStep cd y m mk bp disc acc day).1 k =
      lookupDiscount acc.1 k := by
  rw [CalJs.weekendStep]
  split_ifs with hw hskip
  · rfl
  · exact lookupDiscount_setDiscount_other _ _ _ _ hk
  · rfl

theorem weekendStep_fst_lookup_self (cd : CalendarData) (y m : Int) (mk : String)
    (bp disc : Int) (acc : List (Int × Int) × List (String × MonthData)) (day : Int)
    (hw : jsGetDay y m day = 0 ∨ jsGetDay y m day = 6)
    (hskip : (isDateExcluded cd (toTimestamp y m day) ||
      isDateBlocked cd (formatDate day m y) mk) = false) :
    lookupDiscount (CalJs.weekendStep cd y m mk bp disc acc day).1
      (toTimestamp y m day) = some disc := by
  rw [CalJs.weekendStep]
  rw [if_pos (by rcases hw with h | h <;> simp [h])]
  rw [if_neg (by simp [hskip])]
  exact lookupDiscount_setDiscount_self _ _ _

theorem weekendFold_lookup_other (cd : CalendarData) (y m : Int) (mk : String)
    (bp disc : Int) (l : List Int)
    (acc : List (Int × Int) × List (String × MonthData)) (k : Int)
    (h : ∀ d ∈ l, toTimestamp y m d ≠ k) :
    lookupDiscount (l.foldl (CalJs.weekendStep cd y m mk bp disc) acc).1 k =
      lookupDiscount acc.1 k := by
  induction l generalizing acc with
  | nil => rfl
  | cons hd tl ih =>
      rw [List.foldl_cons]
      rw [ih _ fun d hd2 => h d (List.mem_cons_of_mem _ hd2)]
      exact weekendStep_fst_lookup_other cd y m mk bp disc acc hd k
        (Ne.symm (h hd (List.mem_cons_self _ _)))

theorem weekendFold_lookup_self (cd : CalendarData) (y m : Int) (mk : String)
    (bp disc : Int) (l : List Int)
    (acc : List (Int × Int) × List (String × MonthData)) (day : Int)
    (hday : day ∈ l) (hnd : l.Nodup)
    (hw : jsGetDay y m day = 0 ∨ jsGetDay y m day = 6)
    (hskip : (isDateExcluded cd (toTimestamp y m day) ||
      isDateBlocked cd (formatDate day m y) mk) = false) :
    lookupDiscount (l.foldl (CalJs.weekendStep cd y m mk bp disc) acc).1
      (toTimestamp y m day) = some disc := by
  induction l generalizing acc with
  | nil => cases hday
  | cons hd tl ih =>
      rcases List.mem_cons.mp hday with rfl | hmem
      · have hnotmem : day ∉ tl := (List.nodup_cons.mp hnd).1
        rw [List.foldl_cons]
        rw [weekendFold_lookup_other cd y m mk bp disc tl _ _
          (fun d hd2 hts => hnotmem (by rw [← toTimestamp_day_inj hts]; exact hd2))]
        exact weekendStep_fst_lookup_self cd y m mk bp disc acc day hw hskip
      · exact ih _ hmem (List.nodup_cons.mp hnd).2

/-- Claim C10: `applyWeekendDiscount` with a percent of 0 still creates a
`dateDiscounts` entry — equal to the unchanged base price — for every
Saturday or Sunday of the month that is neither excluded nor blocked, so
that day acquires the is-active (discount) marking and Discounted-status
price derivation even though the displayed price equals the base price:
presence of the key is the only discount signal. -/
theorem C10_zero_weekend_discount (cd : CalendarData) (y m bp day : Int)
    (h1 : 1 ≤ day) (h2 : day ≤ ((daysInMonth y m).toNat : Int))
    (hw : jsGetDay y m day = 0 ∨ jsGetDay y m day = 6)
    (hex : isDateExcluded cd (toTimestamp y m day) = false)
    (hbl : isDateBlocked cd (formatDate day m y) (monthKeyStr y m) = false) :
    lookupDiscount (CalJs.applyWeekendDiscount cd y m bp (some 0)).dateDiscounts
      (toTimestamp y m day) = some bp ∧
    (updateDayDisplay (CalJs.applyWeekendDiscount cd y m bp (some 0)) bp
      (monthKeyStr y m) (createFullDate day m y) (formatDate day m y)).isActive = true ∧
    (updateDayDisplay (CalJs.applyWeekendDiscount cd y m bp (some 0)) bp
      (monthKeyStr y m) (createFullDate day m y) (formatDate day m y)).price = bp := by
  have hday : day ∈ dayListOfMonth y m := by
    rw [dayListOfMonth]
    refine List.mem_map.mpr ⟨(day - 1).toNat, List.mem_range.mpr (by omega), by omega⟩
  have hskip : (isDateExcluded cd (toTimestamp y m day) ||
      isDateBlocked cd (formatDate day m y) (monthKeyStr y m)) = false := by
    rw [hex, hbl]
    rfl
  have hlook : lookupDiscount (CalJs.applyWeekendDiscount cd y m bp (some 0)).dateDiscounts
      (toTimestamp y m day) = some (CalJs.applyDiscount bp (some 0)) := by
    exact weekendFold_lookup_self cd y m (monthKeyStr y m) bp _ _ _ day hday
      (dayListOfMonth_nodup y m) hw hskip
  rw [CalJs_applyDiscount_zero] at hlook
  have hex2 : isDateExcluded (CalJs.applyWeekendDiscount cd y m bp (some 0))
      (toTimestamp y m day) = false := by
    have hed : (CalJs.applyWeekendDiscount cd y m bp (some 0)).excludedDates =
        cd.excludedDates := rfl
    rw [isDateExcluded_ext _ cd hed]
    exact hex
  have hbl2 : isDateBlocked (CalJs.applyWeekendDiscount cd y m bp (some 0))
      (formatDate day m y) (monthKeyStr y m) = false := by
    have hbd : (CalJs.applyWeekendDiscount cd y m bp (some 0)).blockedDates =
        cd.blockedDates := rfl
    rw [isDateBlocked_ext _ cd hbd]
    exact hbl
  refine ⟨hlook, ?_, ?_⟩
  · simp [updateDayDisplay, hbl2, hex2, createFullDate, hlook]
  · simp [updateDayDisplay, hbl2, hex2, createFullDate, hlook]

/-- The C10 witness state: May 2025, nothing excluded or blocked. -/
def c10State : CalendarData :=
  { dateRanges := [], excludedDates := [], dateDiscounts := [], blockedDates := []
    basePrices := [] }

/-- Witness for C10: May 3 2025 is a Saturday; a 0% weekend discount on
base price 250 stores the discount entry 250 for it, marks it active and
displays 250. -/
theorem C10_zero_weekend_discount_witness :
    (jsGetDay 2025 5 3 = 0 ∨ jsGetDay 2025 5 3 = 6) ∧
    lookupDiscount (CalJs.applyWeekendDiscount c10State 2025 5 250 (some 0)).dateDiscounts
      (toTimestamp 2025 5 3) = some 250 ∧
    (updateDayDisplay (CalJs.applyWeekendDiscount c10State 2025 5 250 (some 0)) 250
      (monthKeyStr 2025 5) (createFullDate 3 5 2025) (formatDate 3 5 2025)).isActive = true ∧
    (updateDayDisplay (CalJs.applyWeekendDiscount c10State 2025 5 250 (some 0)) 250
      (monthKeyStr 2025 5) (createFullDate 3 5 2025) (formatDate 3 5 2025)).price = 250 := by
  have h := C10_zero_weekend_discount c10State 2025 5 250 3 (by decide) (by decide)
    (by decide) (by decide) (by decide)
  exact ⟨by decide, h.1, h.2.1, h.2.2⟩
